import Mathlib

/-!
# Verification of the care-triage pre-processing pipeline

Shallow embedding of the decision logic of the `foundry-model-router-care-triage`
backend: PHI redaction (`phi_redactor.py`), safety guardrails (`guardrails.py`),
intent detection (`intent_detector.py`), model selection and routing
preferences (`model_selector.py`, `foundry_client.py`) and citation
extraction (`ai/rag_pipeline.py`).

Text is modelled as `List Char`.  The Python `re` module calls
(`re.findall` / `re.sub` with `re.IGNORECASE`) are embedded by a small
backtracking regular-expression engine (`RE`, `reMs`, `scanFrom`) whose
priority order reproduces Python's leftmost, greedy-with-backtracking
match semantics; each pattern string of the source is transcribed into an
`RE` value below.  Bounded repetition with no upper limit (`+`, `{2,}`) is
encoded as `RE.rep lo n` where the bound `n` is instantiated with a number
at least the length of the scanned text; since every repetition body
consumes at least one character, this is extensionally the same as the
unbounded Python repetition.
-/

/-- Python `\w` (ASCII): letters, digits and underscore. -/
def isWordChar (c : Char) : Bool :=
  c.isAlphanum || c == '_'

/-- Python `\s` (ASCII): the six ASCII whitespace characters. -/
def isSpaceChar (c : Char) : Bool :=
  c == ' ' || c == '\t' || c == '\n' || c == '\r' || c == '\x0b' || c == '\x0c'

/-- Word-status of an optional character; the edge of the text counts as
non-word for `\b`. -/
def isWordOpt : Option Char → Bool
  | none => false
  | some c => isWordChar c

/-- Regular-expression abstract syntax, covering exactly the constructs used
by the patterns in `phi_redactor.py` and `rag_pipeline.py`: character
classes, concatenation, ordered alternation, greedy bounded repetition,
the word-boundary assertion `\b` and one capturing group. -/
inductive RE where
  | eps : RE
  | cls (p : Char → Bool) : RE
  | seq (a b : RE) : RE
  | alt (a b : RE) : RE
  | rep (lo hi : Nat) (a : RE) : RE
  | wordB : RE
  | grp (a : RE) : RE

/-- Last character of `cs`, falling back to `prev` when `cs` is empty; used
to thread the look-behind character for `\b` through a match. -/
def lastOpt (prev : Option Char) (cs : List Char) : Option Char :=
  match cs.getLast? with
  | some c => some c
  | none => prev

/-- All ways the expression can match a prefix of `s`, as pairs of
(consumed characters, captured groups), listed in Python's backtracking
priority order (greedy repetition prefers more copies, alternation prefers
the left branch).  `prev` is the character immediately before `s` in the
haystack (`none` at the start), needed for `\b`.  `fuel` bounds the
recursion depth and is chosen large enough by the callers. -/
def reMs : Nat → RE → Option Char → List Char → List (List Char × List (List Char))
  | 0, _, _, _ => []
  | _ + 1, RE.eps, _, _ => [([], [])]
  | _ + 1, RE.cls p, _, s =>
    match s with
    | [] => []
    | c :: _ => if p c then [([c], [])] else []
  | _ + 1, RE.wordB, prev, s =>
    if isWordOpt prev != isWordOpt s.head? then [([], [])] else []
  | f + 1, RE.seq a b, prev, s =>
    (reMs f a prev s).flatMap fun (ca, ga) =>
      (reMs f b (lastOpt prev ca) (s.drop ca.length)).map fun (cb, gb) =>
        (ca ++ cb, ga ++ gb)
  | f + 1, RE.alt a b, prev, s =>
    reMs f a prev s ++ reMs f b prev s
  | f + 1, RE.rep lo hi a, prev, s =>
    (if hi = 0 then []
     else
       (reMs f a prev s).flatMap fun (ca, ga) =>
         if ca.isEmpty then []
         else
           (reMs f (RE.rep (lo - 1) (hi - 1) a) (lastOpt prev ca) (s.drop ca.length)).map
             fun (cb, gb) => (ca ++ cb, ga ++ gb))
      ++ (if lo = 0 then [([], [])] else [])
  | f + 1, RE.grp a, prev, s =>
    (reMs f a prev s).map fun (c, g) => (c, g ++ [c])

/-- One match found while scanning: the full matched text (`group(0)`)
and the list of captured groups. -/
structure MatchData where
  m0 : List Char
  gs : List (List Char)
  deriving DecidableEq, Repr

/-- A scan result segment: the unmatched gap text preceding a match,
followed by the match itself. -/
abbrev Seg := List Char × MatchData

/-- Prepend an unmatched character to the gap of the first segment (or to
the trailing text when there is no further match). -/
def consGap (x : Char) : List Seg × List Char → List Seg × List Char
  | ([], tail) => ([], x :: tail)
  | ((g, md) :: rest, tail) => ((x :: g, md) :: rest, tail)

/-- Depth bound for `reMs` on a text of length `n`: the recursion depth of
`reMs` is bounded by the pattern's nesting depth plus one per repetition
step, and each repetition step consumes a character, so a bound linear in
`n` with a generous constant covers every pattern in this file. -/
def reFuel (n : Nat) : Nat :=
  4 * n + 200

/-- Scan `s` for successive non-overlapping matches of `r`, the way
`re.findall` / `re.sub` do: at each position try the match; after a match
resume right after it (advancing one character when the match is empty).
Returns the list of segments and the unmatched trailing text, so that the
original text is the concatenation `gap₀ ++ m0₀ ++ gap₁ ++ m0₁ ++ ⋯ ++ tail`. -/
def scanFrom : Nat → RE → Option Char → List Char → List Seg × List Char
  | 0, _, _, s => ([], s)
  | f + 1, r, prev, s =>
    match (reMs (reFuel s.length) r prev s).head? with
    | some (c, g) =>
      match c with
      | [] =>
        match s with
        | [] => ([([], ⟨[], g⟩)], [])
        | x :: rest =>
          let (segs, tail) := consGap x (scanFrom f r (some x) rest)
          (([], ⟨[], g⟩) :: segs, tail)
      | _ :: _ =>
        let (segs, tail) := scanFrom f r (lastOpt prev c) (s.drop c.length)
        (([], ⟨c, g⟩) :: segs, tail)
    | none =>
      match s with
      | [] => ([], [])
      | x :: rest => consGap x (scanFrom f r (some x) rest)

/-- All matches of `r` in `s` (`re.findall`); `r` is a pattern parameterised
by the repetition bound, instantiated with `s.length + 1`. -/
def reScan (r : Nat → RE) (s : List Char) : List Seg × List Char :=
  scanFrom (s.length + 1) (r (s.length + 1)) none s

/-- `re.sub`: every match is replaced by `repl` applied to its match data;
gaps and the trailing text are kept. -/
def reSub (r : Nat → RE) (repl : MatchData → List Char) (s : List Char) : List Char :=
  let (segs, tail) := reScan r s
  (segs.map fun sg => sg.1 ++ repl sg.2).flatten ++ tail

/-- Python `str.replace(old, new)` (non-empty `old`): replace the
non-overlapping occurrences of `old` left to right.  The fuel is the
length of the scanned text. -/
def prGo (old new : List Char) : Nat → List Char → List Char
  | 0, s => s
  | _ + 1, [] => []
  | f + 1, c :: rest =>
    if old.isPrefixOf (c :: rest) then new ++ prGo old new f ((c :: rest).drop old.length)
    else c :: prGo old new f rest

/-- Python `str.replace(old, new)`.  The captured names fed to it by
`redact_phi` are never empty, so the empty-`old` case (where Python would
interleave `new` between all characters) is returned unchanged. -/
def pythonReplace (s old new : List Char) : List Char :=
  if old.isEmpty then s else prGo old new s.length s

/-! ## Pattern transcription helpers -/

/-- Concatenation of a list of expressions. -/
def cat (rs : List RE) : RE :=
  rs.foldr RE.seq RE.eps

/-- A class matching nothing; the terminator for n-ary alternations. -/
def never : RE :=
  RE.cls fun _ => false

/-- Ordered alternation of a list of expressions (left branch first, as in
Python). -/
def altList (rs : List RE) : RE :=
  rs.foldr RE.alt never

/-- Case-insensitive single literal character (all the redaction patterns
are compiled with `re.IGNORECASE`). -/
def chrI (c : Char) : RE :=
  RE.cls fun x => x.toLower == c.toLower

/-- Case-sensitive single literal character. -/
def chrC (c : Char) : RE :=
  RE.cls fun x => x == c

/-- Case-insensitive literal word. -/
def litI (s : List Char) : RE :=
  cat (s.map chrI)

/-- Case-sensitive literal word. -/
def litC (s : List Char) : RE :=
  cat (s.map chrC)

/-- `?` (greedy option). -/
def repOpt (a : RE) : RE :=
  RE.rep 0 1 a

/-- `+` (greedy, one or more), bounded by `n`. -/
def plus (n : Nat) (a : RE) : RE :=
  RE.rep 1 n a

/-- `*` (greedy, zero or more), bounded by `n`. -/
def star (n : Nat) (a : RE) : RE :=
  RE.rep 0 n a

/-- `{k}` (exactly `k`). -/
def repExact (k : Nat) (a : RE) : RE :=
  RE.rep k k a

/-- `\d`. -/
def digitC : RE :=
  RE.cls Char.isDigit

/-- `[-.]` (the phone-number separator class). -/
def phoneSepC : RE :=
  RE.cls fun c => c == '-' || c == '.'

/-- `[\s:]`. -/
def wsColonC : RE :=
  RE.cls fun c => isSpaceChar c || c == ':'

/-- `[⧸-]` (slash-or-dash date separator class; `⧸` stands for the ASCII
forward slash). -/
def slashDashC : RE :=
  RE.cls fun c => c == '/' || c == '-'

/-- `[A-Za-z0-9._%+-]` (e-mail local part). -/
def emailLocalC : RE :=
  RE.cls fun c => c.isAlphanum || c == '.' || c == '_' || c == '%' || c == '+' || c == '-'

/-- `[A-Za-z0-9.-]` (e-mail domain). -/
def emailDomainC : RE :=
  RE.cls fun c => c.isAlphanum || c == '.' || c == '-'

/-- `[A-Z|a-z]` (e-mail top-level domain; the source class really contains
the literal `|`). -/
def emailTldC : RE :=
  RE.cls fun c => c.isAlpha || c == '|'

/-- `[\w\s]`. -/
def wordSpaceC : RE :=
  RE.cls fun c => isWordChar c || isSpaceChar c

/-- `\s`. -/
def spaceC : RE :=
  RE.cls isSpaceChar

/-- `[A-Z]` under `re.IGNORECASE`: any ASCII letter. -/
def upperC : RE :=
  RE.cls Char.isAlpha

/-- `[a-z]` under `re.IGNORECASE`: any ASCII letter. -/
def lowerAlphaC : RE :=
  RE.cls Char.isAlpha

/-! ## The PHI patterns of `PHIRedactor.PATTERNS` -/

/-- `\b\d{3}[-.]?\d{3}[-.]?\d{4}\b` (phone). -/
def phonePat (_n : Nat) : RE :=
  cat [RE.wordB, repExact 3 digitC, repOpt phoneSepC, repExact 3 digitC,
    repOpt phoneSepC, repExact 4 digitC, RE.wordB]

/-- `\b\d{3}-\d{2}-\d{4}\b` (ssn). -/
def ssnPat (_n : Nat) : RE :=
  cat [RE.wordB, repExact 3 digitC, chrC '-', repExact 2 digitC, chrC '-',
    repExact 4 digitC, RE.wordB]

/-- `\b[A-Za-z0-9._%+-]+@[A-Za-z0-9.-]+\.[A-Z|a-z]{2,}\b` (email). -/
def emailPat (n : Nat) : RE :=
  cat [RE.wordB, plus n emailLocalC, chrC '@', plus n emailDomainC, chrC '.',
    RE.rep 2 n emailTldC, RE.wordB]

/-- `\b(?:MRN|medical record number)[\s:]?\d{6,10}\b` (mrn). -/
def mrnPat (_n : Nat) : RE :=
  cat [RE.wordB, RE.alt (litI "MRN".data) (litI "medical record number".data),
    repOpt wsColonC, RE.rep 6 10 digitC, RE.wordB]

/-- `\b(?:DOB|date of birth)[\s:]?\d{1,2}[⧸-]\d{1,2}[⧸-]\d{2,4}\b`
(date_of_birth; `⧸` stands for the ASCII forward slash of the source
pattern, which cannot be written next to a dash inside a Lean comment). -/
def dobPat (_n : Nat) : RE :=
  cat [RE.wordB, RE.alt (litI "DOB".data) (litI "date of birth".data),
    repOpt wsColonC, RE.rep 1 2 digitC, slashDashC, RE.rep 1 2 digitC,
    slashDashC, RE.rep 2 4 digitC, RE.wordB]

/-- `\b\d+\s+[\w\s]+(?:street|st|avenue|ave|road|rd|lane|ln|drive|dr|boulevard|blvd)\b`
(address). -/
def addressPat (n : Nat) : RE :=
  cat [RE.wordB, plus n digitC, plus n spaceC, plus n wordSpaceC,
    altList [litI "street".data, litI "st".data, litI "avenue".data, litI "ave".data,
      litI "road".data, litI "rd".data, litI "lane".data, litI "ln".data,
      litI "drive".data, litI "dr".data, litI "boulevard".data, litI "blvd".data],
    RE.wordB]

/-- The apostrophe character (used by the `I'm` literal). -/
def apos : Char :=
  Char.ofNat 39

/-- `([A-Z][a-z]+(?:\s+[A-Z][a-z]+)?)`: the captured name of both name
patterns. -/
def capName (n : Nat) : RE :=
  RE.grp (cat [upperC, plus n lowerAlphaC,
    repOpt (cat [plus n spaceC, upperC, plus n lowerAlphaC])])

/-- First entry of `NAME_PATTERNS`:
`\b(?:my name is|I am|I\'m)\s+([A-Z][a-z]+(?:\s+[A-Z][a-z]+)?)\b`. -/
def name1Pat (n : Nat) : RE :=
  cat [RE.wordB,
    altList [litI "my name is".data, litI "I am".data, litI ['I', apos, 'm']],
    plus n spaceC, capName n, RE.wordB]

/-- Second entry of `NAME_PATTERNS`:
`\bpatient:\s*([A-Z][a-z]+(?:\s+[A-Z][a-z]+)?)\b`. -/
def name2Pat (n : Nat) : RE :=
  cat [RE.wordB, litI "patient:".data, star n spaceC, capName n, RE.wordB]

/-! ## `PHIRedactor.redact_phi` -/

/-- One redaction rule: category tag, pattern, and the replacement applied
to each match by `re.sub`. -/
structure Stage where
  tag : String
  pat : Nat → RE
  repl : MatchData → List Char

/-- A rule of the `PATTERNS` table: every match is replaced by the literal
placeholder `f"[REDACTED_{phi_type.upper()}]"`. -/
def patternStage (tag : String) (pat : Nat → RE) : Stage :=
  { tag := tag, pat := pat,
    repl := fun _ => "[REDACTED_".data ++ tag.data.map Char.toUpper ++ "]".data }

/-- The replacement lambda of the name pass:
`lambda m: m.group(0).replace(m.group(1), "[REDACTED_NAME]")`. -/
def nameRepl (md : MatchData) : List Char :=
  pythonReplace md.m0 (md.gs.headD []) "[REDACTED_NAME]".data

/-- A rule of the `NAME_PATTERNS` list (category tag `"name"`). -/
def nameStage (pat : Nat → RE) : Stage :=
  { tag := "name", pat := pat, repl := nameRepl }

/-- `PHIRedactor.PATTERNS`, in dict order. -/
def phiPatternStages : List Stage :=
  [patternStage "phone" phonePat, patternStage "ssn" ssnPat,
   patternStage "email" emailPat, patternStage "mrn" mrnPat,
   patternStage "date_of_birth" dobPat, patternStage "address" addressPat]

/-- `PHIRedactor.NAME_PATTERNS`. -/
def phiNameStages : List Stage :=
  [nameStage name1Pat, nameStage name2Pat]

/-- The `redacted_text` accumulator of the `redact_phi` loop: for each
rule in order, `matches = re.findall(...)`; only `if matches:` is the
substitution performed. -/
def redactText : List Stage → List Char → List Char
  | [], t => t
  | st :: rest, t =>
    if ((reScan st.pat t).1).isEmpty then redactText rest t
    else redactText rest (reSub st.pat st.repl t)

/-- The `phi_types_detected` accumulator of the `redact_phi` loop: for
each rule whose `re.findall` on the text redacted so far is non-empty,
its tag is appended. -/
def redactCats : List Stage → List Char → List String
  | [], _ => []
  | st :: rest, t =>
    if ((reScan st.pat t).1).isEmpty then redactCats rest t
    else st.tag :: redactCats rest (reSub st.pat st.repl t)

/-- The full rule list of `redact_phi`: the `PATTERNS` table followed by
the `NAME_PATTERNS` passes. -/
def phiStages : List Stage :=
  phiPatternStages ++ phiNameStages

/-- `PHIRedactor.redact_phi(text) -> (redacted_text, has_phi,
phi_types_detected)`; `has_phi = len(phi_types_detected) > 0`. -/
def redact_phi (text : List Char) : List Char × Bool × List String :=
  (redactText phiStages text, !(redactCats phiStages text).isEmpty,
    redactCats phiStages text)

/-! ## `Guardrails` (`guardrails.py`) -/

/-- Python `str.lower()` (the texts involved are ASCII). -/
def pyLower (s : List Char) : List Char :=
  s.map Char.toLower

/-- Python's `needle in hay` substring test. -/
def containsSub (needle : List Char) : List Char → Bool
  | [] => needle.isEmpty
  | c :: rest => needle.isPrefixOf (c :: rest) || containsSub needle rest

/-- `Guardrails.HIGH_RISK_KEYWORDS`. -/
def HIGH_RISK_KEYWORDS : List String :=
  ["suicide", "kill myself", "end my life", "self-harm",
   "overdose", "emergency", "chest pain", "can't breathe",
   "severe bleeding", "unconscious", "stroke"]

/-- `Guardrails.PROHIBITED_KEYWORDS`. -/
def PROHIBITED_KEYWORDS : List String :=
  ["illegal drugs", "fake prescription", "forge",
   "abuse medication", "sell prescription"]

/-- The metadata dict returned by `check_safety`; only the keys that the
source ever sets. -/
structure SafetyMeta where
  risk_level : String
  reason : Option String
  requires_emergency_warning : Option Bool
  deriving DecidableEq, Repr

/-- The emergency warning text of `check_safety`. -/
def emergencyMessage : String :=
  "⚠️ **Emergency Detected**: If this is a medical emergency, " ++
  "please call 911 or visit your nearest emergency room immediately. " ++
  "This is a demonstration tool and cannot provide emergency care."

/-- `Guardrails.check_safety(message) -> (is_safe, warning_message,
metadata)`.  The two `for` loops that return on the first keyword found in
the lower-cased message are embedded as `List.any` membership scans: the
returned verdict does not depend on which keyword fired. -/
def check_safety (message : List Char) : Bool × String × SafetyMeta :=
  let message_lower := pyLower message
  if PROHIBITED_KEYWORDS.any (fun k => containsSub k.data message_lower) then
    (false, "This request cannot be processed due to prohibited content.",
      ⟨"prohibited", some "prohibited_content", none⟩)
  else if HIGH_RISK_KEYWORDS.any (fun k => containsSub k.data message_lower) then
    (true, emergencyMessage, ⟨"high", none, some true⟩)
  else
    (true, "", ⟨"low", none, none⟩)

/-- The clinical disclaimer appended by `add_disclaimer`. -/
def clinicalDisclaimer : String :=
  "\n\n---\n" ++
  "*This is a demonstration tool and not a substitute for professional medical advice, " ++
  "diagnosis, or treatment. Always seek the advice of your physician or qualified " ++
  "health provider with any questions regarding a medical condition.*"

/-- The image-analysis disclaimer appended by `add_disclaimer`. -/
def visionDisclaimer : String :=
  "\n\n---\n" ++
  "*This image analysis is for educational purposes only and should not be used " ++
  "for diagnostic decisions. Consult a qualified healthcare professional for " ++
  "medical image interpretation.*"

/-- `Guardrails.add_disclaimer(response, intent)`. -/
def add_disclaimer (response : String) (intent : String) : String :=
  if intent = "clinical" then response ++ clinicalDisclaimer
  else if intent = "vision" then response ++ visionDisclaimer
  else response

/-! ## `IntentDetector` (`intent_detector.py`) -/

/-- `IntentDetector.ADMIN_KEYWORDS`. -/
def ADMIN_KEYWORDS : List String :=
  ["appointment", "schedule", "billing", "insurance", "cost", "price",
   "hours", "location", "doctor availability", "reschedule", "cancel",
   "registration", "forms", "paperwork", "contact", "office"]

/-- `IntentDetector.CLINICAL_KEYWORDS`. -/
def CLINICAL_KEYWORDS : List String :=
  ["symptom", "diagnosis", "treatment", "medication", "prescription",
   "pain", "fever", "cough", "headache", "nausea", "infection",
   "disease", "condition", "procedure", "surgery", "test", "lab",
   "vitals", "blood pressure", "heart rate", "medical history"]

/-- `IntentDetector.VISION_KEYWORDS`. -/
def VISION_KEYWORDS : List String :=
  ["image", "photo", "picture", "scan", "x-ray", "mri", "ct scan",
   "look at this", "see this", "analyze", "examine"]

/-- `sum(1 for keyword in keywords if keyword in message_lower)`. -/
def keywordScore (keywords : List String) (message : List Char) : Nat :=
  keywords.countP fun k => containsSub k.data (pyLower message)

/-- The vision keyword score of `detect_intent`. -/
def vision_score (message : List Char) : Nat :=
  keywordScore VISION_KEYWORDS message

/-- The clinical keyword score of `detect_intent`. -/
def clinical_score (message : List Char) : Nat :=
  keywordScore CLINICAL_KEYWORDS message

/-- The admin keyword score of `detect_intent`. -/
def admin_score (message : List Char) : Nat :=
  keywordScore ADMIN_KEYWORDS message

/-- `IntentDetector.detect_intent(message, has_image) -> (intent,
confidence_reason)`. -/
def detect_intent (message : List Char) (has_image : Bool) : String × String :=
  if has_image then
    ("vision", "Image attached - routed to vision model")
  else if vision_score message > 0 then
    ("vision", "Vision keywords detected (score: " ++ toString (vision_score message) ++ ")")
  else if clinical_score message > admin_score message then
    ("clinical", "Clinical keywords detected (score: " ++ toString (clinical_score message) ++ ")")
  else if admin_score message > 0 then
    ("admin", "Administrative keywords detected (score: " ++ toString (admin_score message) ++ ")")
  else
    ("clinical", "Default to clinical for healthcare context")

/-! ## `ModelSelector` (`model_selector.py`) -/

/-- One entry of `ModelSelector.MODELS`. -/
structure ModelConfig where
  deployment : String
  use_case : String
  supports_vision : Bool
  deriving DecidableEq, Repr

/-- `ModelSelector.MODELS`. -/
def MODELS : List (String × ModelConfig) :=
  [("router", ⟨"model-router", "general", false⟩),
   ("admin", ⟨"gpt-35-turbo", "administrative", false⟩),
   ("clinical", ⟨"gpt-4", "clinical", false⟩),
   ("vision", ⟨"gpt-4-vision", "vision", true⟩)]

/-- `cls.MODELS[key]`; the source only ever looks up the four existing
keys, so the default is never reached. -/
def modelsGet (key : String) : ModelConfig :=
  ((MODELS.lookup key).getD ⟨"", "", false⟩)

/-- `ModelSelector.select_model(intent, mode, has_image, use_router) ->
(deployment_name, model_type, rationale)`. -/
def select_model (intent mode : String) (has_image use_router : Bool) :
    String × String × String :=
  if has_image || intent = "vision" then
    ((modelsGet "vision").deployment, "vision",
      "Image present - routing to vision-capable model")
  else if use_router && !has_image then
    ((modelsGet "router").deployment, "router",
      if mode = "cost" then "Cost-optimized routing via Model Router"
      else if mode = "quality" then "Quality-optimized routing via Model Router"
      else "Balanced routing via Model Router")
  else if intent = "admin" then
    ((modelsGet "admin").deployment, "admin",
      "Administrative query - using fast, cost-effective model")
  else if intent = "clinical" then
    ((modelsGet "clinical").deployment, "clinical",
      "Clinical query - using high-quality model")
  else
    ((modelsGet "router").deployment, "router", "Default routing via Model Router")

/-- `ModelSelector.get_routing_preferences(mode)`. -/
structure RoutingPreferences where
  routing_mode : String
  allow_fallback : Bool
  prefer_fast : Bool
  deriving DecidableEq, Repr

/-- `ModelSelector.get_routing_preferences(mode) -> Dict`: any mode other
than `"cost"` and `"quality"` falls through to the balanced preferences. -/
def get_routing_preferences (mode : String) : RoutingPreferences :=
  if mode = "cost" then ⟨"cost_optimized", true, true⟩
  else if mode = "quality" then ⟨"quality_optimized", false, false⟩
  else ⟨"balanced", true, false⟩

/-! ## `FoundryClient.call_router` (`foundry_client.py`) -/

/-- A chat message (`role`, `content`). -/
structure ChatMessage where
  role : String
  content : String
  deriving DecidableEq, Repr

/-- The JSON payload `call_router` posts to the Model Router deployment.
The sampling temperature is modelled as a rational number. -/
structure RouterPayload where
  messages : List ChatMessage
  max_tokens : Nat
  temperature : ℚ
  stream : Bool
  model : String
  deriving DecidableEq, Repr

/-- The payload construction of `FoundryClient.call_router`: `messages`,
`max_tokens`, `temperature` and `stream=False` are copied verbatim, then
`payload["model"]` is set from the mode (`cost` → `"cost-optimized"`,
`quality` → `"quality-optimized"`, anything else → `"balanced"`). -/
def call_router_payload (messages : List ChatMessage) (mode : String)
    (max_tokens : Nat) (temperature : ℚ) : RouterPayload :=
  { messages := messages, max_tokens := max_tokens, temperature := temperature,
    stream := false,
    model :=
      if mode = "cost" then "cost-optimized"
      else if mode = "quality" then "quality-optimized"
      else "balanced" }

/-! ## `RAGPipeline.extract_citations` (`ai/rag_pipeline.py`) -/

/-- A retrieved document record. -/
structure DocRec where
  content : String
  title : String
  source : String
  category : String
  deriving DecidableEq, Repr

/-- `\[Source (\d+)\]`: the citation marker pattern (case-sensitive; this
`re.findall` call passes no flags). -/
def citationPat (n : Nat) : RE :=
  cat [litC "[Source ".data, RE.grp (plus n digitC), litC "]".data]

/-- Python `int` on a digit string. -/
def natOfDigits (s : List Char) : Nat :=
  s.foldl (fun acc c => acc * 10 + (c.toNat - '0'.toNat)) 0

/-- The formatted-citation value: `{"title": ..., "source": ...,
"category": ...}`. -/
structure CitationInfo where
  title : String
  source : String
  category : String
  deriving DecidableEq, Repr

/-- The body of the `for citation_num in set(citations):` loop of
`extract_citations`: resolve `idx = int(citation_num) - 1` and keep the
entry only when `0 <= idx < len(documents)`; out-of-range citation
numbers yield no entry. -/
def citationEntry (documents : List DocRec) (citation_num : List Char) :
    Option (List Char × CitationInfo) :=
  if 0 ≤ (natOfDigits citation_num : Int) - 1 ∧
      (natOfDigits citation_num : Int) - 1 < documents.length then
    (documents.get? ((natOfDigits citation_num : Int) - 1).toNat).map fun doc =>
      (citation_num, ⟨doc.title, doc.source, doc.category⟩)
  else none

/-- `RAGPipeline.extract_citations(response, documents)`: find all
`[Source N]` markers, de-duplicate the citation-number strings (`set`),
resolve `int(n) - 1` as a zero-based index and keep only the in-range
entries.  The returned association list models the Python dict. -/
def extract_citations (response : List Char) (documents : List DocRec) :
    List (List Char × CitationInfo) :=
  let citations := ((reScan citationPat response).1).map fun sg => sg.2.gs.headD []
  citations.dedup.filterMap (citationEntry documents)

/-! ## Theorems -/

set_option maxRecDepth 1000000

/-- **C1.** For every input message, `check_safety` reports exactly one
`risk_level`, drawn from `{low, high, prohibited}` (the returned metadata
carries a single value of that field); and if the lower-cased message
contains any prohibited keyword, the verdict is `is_safe = false` with
`risk_level = "prohibited"`, regardless of any co-occurring high-risk
keywords, because the prohibited scan runs first. -/
theorem C1_check_safety_prohibited_wins (message : List Char) :
    ((check_safety message).2.2.risk_level = "low" ∨
      (check_safety message).2.2.risk_level = "high" ∨
      (check_safety message).2.2.risk_level = "prohibited") ∧
    ((∃ k ∈ PROHIBITED_KEYWORDS, containsSub k.data (pyLower message) = true) →
      (check_safety message).1 = false ∧
      (check_safety message).2.2.risk_level = "prohibited") := by
  by_cases hp : PROHIBITED_KEYWORDS.any (fun k => containsSub k.data (pyLower message)) = true
  · simp [check_safety, hp]
  · by_cases hh : HIGH_RISK_KEYWORDS.any (fun k => containsSub k.data (pyLower message)) = true
    · refine ⟨?_, fun hex => absurd (List.any_eq_true.mpr ?_) hp⟩
      · simp [check_safety, hp, hh]
      · obtain ⟨k, hk, hks⟩ := hex
        exact ⟨k, hk, hks⟩
    · refine ⟨?_, fun hex => absurd (List.any_eq_true.mpr ?_) hp⟩
      · simp [check_safety, hp, hh]
      · obtain ⟨k, hk, hks⟩ := hex
        exact ⟨k, hk, hks⟩

/-- Witness for C1 at a message containing the prohibited keyword
`"forge"` (and the high-risk keyword `"overdose"`, which loses the
tie-break). -/
theorem C1_check_safety_prohibited_wins_witness :
    (check_safety "can I forge a note about an overdose".data).1 = false ∧
    (check_safety "can I forge a note about an overdose".data).2.2.risk_level =
      "prohibited" :=
  (C1_check_safety_prohibited_wins "can I forge a note about an overdose".data).2
    (by decide)

/-- **C3.** `detect_intent` follows the strict precedence cascade: image
first, then vision keywords, then the clinical-versus-admin score
comparison, then positive admin score, and `"clinical"` as the fail-safe
default (which covers the empty message). -/
theorem C3_detect_intent_cascade (message : List Char) (has_image : Bool) :
    (detect_intent message has_image).1 =
      (if has_image then "vision"
       else if 0 < vision_score message then "vision"
       else if admin_score message < clinical_score message then "clinical"
       else if 0 < admin_score message then "admin"
       else "clinical") := by
  simp only [detect_intent]
  split_ifs <;> rfl

/-- **C4.** If `has_image` is true or the intent is `"vision"`,
`select_model` returns the vision deployment with model type `"vision"`,
regardless of mode and of the `use_router` flag. -/
theorem C4_select_model_vision (intent mode : String) (has_image use_router : Bool)
    (h : has_image = true ∨ intent = "vision") :
    select_model intent mode has_image use_router =
      ((modelsGet "vision").deployment, "vision",
        "Image present - routing to vision-capable model") := by
  rcases h with h | h <;> simp [select_model, h]

/-- Witness for C4: an admin-intent, cost-mode request with an image is
still routed to the vision deployment `gpt-4-vision`. -/
theorem C4_select_model_vision_witness :
    select_model "admin" "cost" true true =
      ("gpt-4-vision", "vision", "Image present - routing to vision-capable model") :=
  (C4_select_model_vision "admin" "cost" true true (Or.inl rfl)).trans (by decide)

/-- **C9, counterexample.** The claim says quality mode increases the token
budget and temperature (up to caps) and cost mode decreases them (down to
floors).  In fact, at the default budget `1000` and temperature `7/10`,
both quality and cost mode forward exactly the given values, and the
routing preferences contain no sampling parameters at all (only
`routing_mode`, `allow_fallback`, `prefer_fast`). -/
theorem C9_counterexample_params_unchanged :
    (call_router_payload [] "quality" 1000 (7/10)).max_tokens = 1000 ∧
    (call_router_payload [] "quality" 1000 (7/10)).temperature = 7/10 ∧
    (call_router_payload [] "cost" 1000 (7/10)).max_tokens = 1000 ∧
    (call_router_payload [] "cost" 1000 (7/10)).temperature = 7/10 ∧
    get_routing_preferences "quality" =
      { routing_mode := "quality_optimized", allow_fallback := false, prefer_fast := false } :=
  ⟨rfl, rfl, rfl, rfl, by decide⟩

/-- **C9, amended.** Mode does not adjust any sampling parameter: for every
mode the payload built by `call_router` carries the given `max_tokens` and
`temperature` unchanged, and mode only selects the payload's `model` hint
and the routing-preference flags (unrecognized modes fall through to the
balanced values). -/
theorem C9_amended_mode_only_selects_hint (messages : List ChatMessage)
    (mode : String) (max_tokens : Nat) (temperature : ℚ) :
    (call_router_payload messages mode max_tokens temperature).max_tokens = max_tokens ∧
    (call_router_payload messages mode max_tokens temperature).temperature = temperature ∧
    (call_router_payload messages mode max_tokens temperature).model =
      (if mode = "cost" then "cost-optimized"
       else if mode = "quality" then "quality-optimized"
       else "balanced") ∧
    get_routing_preferences mode =
      (if mode = "cost" then ⟨"cost_optimized", true, true⟩
       else if mode = "quality" then ⟨"quality_optimized", false, false⟩
       else ⟨"balanced", true, false⟩) :=
  ⟨rfl, rfl, rfl, rfl⟩

/-- **C10.** `add_disclaimer` appends the fixed medical disclaimer for
intent `"clinical"`, the fixed image-analysis disclaimer for `"vision"`,
and returns the response unchanged for every other intent; in all cases
the original response is a prefix of the result. -/
theorem C10_add_disclaimer_cases (response intent : String) :
    (intent = "clinical" →
      add_disclaimer response intent = response ++ clinicalDisclaimer) ∧
    (intent = "vision" →
      add_disclaimer response intent = response ++ visionDisclaimer) ∧
    (intent ≠ "clinical" → intent ≠ "vision" →
      add_disclaimer response intent = response) ∧
    response.data <+: (add_disclaimer response intent).data := by
  have hdata : ∀ a b : String, (a ++ b).data = a.data ++ b.data := fun _ _ => rfl
  refine ⟨fun h => by simp [add_disclaimer, h], fun h => ?_, fun hc hv => ?_, ?_⟩
  · have hne : intent ≠ "clinical" := by rw [h]; decide
    simp [add_disclaimer, hne, h]
  · simp [add_disclaimer, hc, hv]
  · by_cases h1 : intent = "clinical"
    · rw [add_disclaimer, if_pos h1, hdata]
      exact List.prefix_append _ _
    · by_cases h2 : intent = "vision"
      · rw [add_disclaimer, if_neg h1, if_pos h2, hdata]
        exact List.prefix_append _ _
      · rw [add_disclaimer, if_neg h1, if_neg h2]

/-- Witness for C10 at intent `"admin"`: the response is returned
completely unchanged and is (trivially) a prefix of the result. -/
theorem C10_add_disclaimer_cases_witness :
    add_disclaimer "All set." "admin" = "All set." ∧
    ("All set." : String).data <+: (add_disclaimer "All set." "admin").data :=
  ⟨(C10_add_disclaimer_cases "All set." "admin").2.2.1 (by decide) (by decide),
    (C10_add_disclaimer_cases "All set." "admin").2.2.2⟩

/-- The in-range test of `citationEntry`, as a Boolean predicate on the
citation-number string. -/
def citationInRange (documents : List DocRec) (citation_num : List Char) : Bool :=
  decide (0 ≤ (natOfDigits citation_num : Int) - 1 ∧
    (natOfDigits citation_num : Int) - 1 < documents.length)

theorem citationEntry_keys (documents : List DocRec) (l : List (List Char)) :
    (l.filterMap (citationEntry documents)).map Prod.fst =
      l.filter (citationInRange documents) := by
  induction l with
  | nil => rfl
  | cons a t ih =>
    rw [List.filterMap_cons, List.filter_cons]
    by_cases h : 0 ≤ (natOfDigits a : Int) - 1 ∧
        (natOfDigits a : Int) - 1 < (documents.length : Int)
    · have hlt : ((natOfDigits a : Int) - 1).toNat < documents.length := by omega
      obtain ⟨dv, hdv⟩ : ∃ dv,
          documents.get? (((natOfDigits a : Int) - 1).toNat) = some dv := by
        rw [List.get?_eq_get hlt]; exact ⟨_, rfl⟩
      rw [show citationEntry documents a =
          some (a, ⟨dv.title, dv.source, dv.category⟩) from by
        rw [citationEntry, if_pos h, hdv]; rfl]
      rw [show citationInRange documents a = true from decide_eq_true h]
      simp only [List.map_cons, if_true]
      rw [ih]
    · rw [show citationEntry documents a = none from by rw [citationEntry, if_neg h]]
      rw [show citationInRange documents a = false from decide_eq_false h]
      simpa using ih

/-- **C8.** `extract_citations` is a total function (the embedding returns
a value for every response string and document list — nothing can raise),
its keys are de-duplicated citation numbers, and every key's resolved
zero-based index `int(k) - 1` lies within the documents list's bounds;
citation numbers whose index is out of range are silently omitted (they
are exactly the ones the in-range filter removes). -/
theorem C8_extract_citations_bounds (response : List Char) (documents : List DocRec) :
    ((extract_citations response documents).map Prod.fst).Nodup ∧
    (∀ k ∈ (extract_citations response documents).map Prod.fst,
      0 ≤ (natOfDigits k : Int) - 1 ∧
        (natOfDigits k : Int) - 1 < documents.length) := by
  have hEq : extract_citations response documents =
      ((((reScan citationPat response).1).map fun sg =>
        sg.2.gs.headD []).dedup).filterMap (citationEntry documents) := rfl
  rw [hEq, citationEntry_keys]
  refine ⟨(List.nodup_dedup _).filter _, fun k hk => ?_⟩
  have hb : citationInRange documents k = true := List.of_mem_filter hk
  rw [citationInRange] at hb
  exact of_decide_eq_true hb

/-- Witness for C8: the end-to-end scenario with three documents and a
response citing `[Source 1]` and the hallucinated `[Source 4]`: the key
`"1"` is present and in range (while `"4"`, being out of range, can by the
theorem not be a key). -/
theorem C8_extract_citations_bounds_witness :
    ((extract_citations "See [Source 1] and [Source 4].".data
        [⟨"c1", "t1", "s1", "k1"⟩, ⟨"c2", "t2", "s2", "k2"⟩,
          ⟨"c3", "t3", "s3", "k3"⟩]).map Prod.fst).Nodup ∧
    (0 ≤ (natOfDigits "1".data : Int) - 1 ∧
      (natOfDigits "1".data : Int) - 1 <
        ([⟨"c1", "t1", "s1", "k1"⟩, ⟨"c2", "t2", "s2", "k2"⟩,
          ⟨"c3", "t3", "s3", "k3"⟩] : List DocRec).length) :=
  ⟨(C8_extract_citations_bounds "See [Source 1] and [Source 4].".data
      [⟨"c1", "t1", "s1", "k1"⟩, ⟨"c2", "t2", "s2", "k2"⟩, ⟨"c3", "t3", "s3", "k3"⟩]).1,
    (C8_extract_citations_bounds "See [Source 1] and [Source 4].".data
      [⟨"c1", "t1", "s1", "k1"⟩, ⟨"c2", "t2", "s2", "k2"⟩, ⟨"c3", "t3", "s3", "k3"⟩]).2
      "1".data (by decide)⟩

/-- `re.findall(pattern, text, re.IGNORECASE)` is non-empty, i.e. the text
contains a substring matching the pattern. -/
def hasPatternMatch (p : Nat → RE) (t : List Char) : Bool :=
  !((reScan p t).1).isEmpty

/-- The rule list of `redact_phi`, written out. -/
theorem phiStages_eq :
    phiStages =
      [patternStage "phone" phonePat, patternStage "ssn" ssnPat,
        patternStage "email" emailPat, patternStage "mrn" mrnPat,
        patternStage "date_of_birth" dobPat, patternStage "address" addressPat,
        nameStage name1Pat, nameStage name2Pat] := rfl

theorem redactCats_head_pos (st : Stage) (rest : List Stage) (u : List Char)
    (hu : ((reScan st.pat u).1).isEmpty = false) :
    (redactCats (st :: rest) u).isEmpty = false := by
  simp [redactCats, hu]

theorem redactCats_head_skip (st : Stage) (rest : List Stage) (u : List Char)
    (hu : ((reScan st.pat u).1).isEmpty = true) :
    redactCats (st :: rest) u = redactCats rest u := by
  simp [redactCats, hu]

/-- **C2, counterexample.** The text `"5551234567@x.com"` contains an
e-mail match (the whole of it), yet `redact_phi` reports only
`["phone"]`: the phone pass, which runs first, consumes the digits of the
local part, and the e-mail pass no longer finds a match — so the `"email"`
category tag corresponding to a pattern present in the original text is
missing from the returned categories list. -/
theorem C2_counterexample_email_tag_lost :
    hasPatternMatch emailPat "5551234567@x.com".data = true ∧
    (redact_phi "5551234567@x.com".data).2.2 = ["phone"] ∧
    "email" ∉ (redact_phi "5551234567@x.com".data).2.2 := by
  exact ⟨by decide, by decide, by decide⟩

/-- **C2, amended.** For every text containing a US-format phone number,
SSN, email, or address fragment (as defined by the corresponding PHI
patterns), `redact_phi` returns `has_phi = true`; the category tag of a
specific pattern matched by the original text may however be absent when
an earlier pattern's replacements destroyed its occurrences. -/
theorem C2_amended_has_phi (text : List Char)
    (h : hasPatternMatch phonePat text = true ∨ hasPatternMatch ssnPat text = true ∨
      hasPatternMatch emailPat text = true ∨ hasPatternMatch addressPat text = true) :
    (redact_phi text).2.1 = true := by
  suffices hne : (redactCats phiStages text).isEmpty = false by
    show (!(redactCats phiStages text).isEmpty) = true
    rw [hne]; rfl
  have hb : ∀ p : Nat → RE, hasPatternMatch p text = true →
      ((reScan p text).1).isEmpty = false := by
    intro p hp
    rw [hasPatternMatch] at hp
    cases hh : ((reScan p text).1).isEmpty
    · rfl
    · rw [hh] at hp; exact absurd hp (by decide)
  rw [phiStages_eq]
  cases h1 : ((reScan phonePat text).1).isEmpty
  · exact redactCats_head_pos _ _ _ h1
  · rw [redactCats_head_skip _ _ _ h1]
    rcases h with h | h
    · rw [hb _ h] at h1; exact absurd h1 (by decide)
    cases h2 : ((reScan ssnPat text).1).isEmpty
    · exact redactCats_head_pos _ _ _ h2
    · rw [redactCats_head_skip _ _ _ h2]
      rcases h with h | h
      · rw [hb _ h] at h2; exact absurd h2 (by decide)
      cases h3 : ((reScan emailPat text).1).isEmpty
      · exact redactCats_head_pos _ _ _ h3
      · rw [redactCats_head_skip _ _ _ h3]
        rcases h with h | h
        · rw [hb _ h] at h3; exact absurd h3 (by decide)
        cases h4 : ((reScan mrnPat text).1).isEmpty
        · exact redactCats_head_pos _ _ _ h4
        · rw [redactCats_head_skip _ _ _ h4]
          cases h5 : ((reScan dobPat text).1).isEmpty
          · exact redactCats_head_pos _ _ _ h5
          · rw [redactCats_head_skip _ _ _ h5]
            exact redactCats_head_pos _ _ _ (hb _ h)

/-- Witness for the amended C2 at a text containing a phone number. -/
theorem C2_amended_has_phi_witness :
    hasPatternMatch phonePat "call 555-123-4567".data = true ∧
    (redact_phi "call 555-123-4567".data).2.1 = true :=
  ⟨by decide, C2_amended_has_phi "call 555-123-4567".data (Or.inl (by decide))⟩

theorem redactCats_sublist (stages : List Stage) (t : List Char) :
    (redactCats stages t).Sublist (stages.map Stage.tag) := by
  induction stages generalizing t with
  | nil => simp [redactCats]
  | cons st rest ih =>
    cases hm : ((reScan st.pat t).1).isEmpty
    · rw [show redactCats (st :: rest) t =
          st.tag :: redactCats rest (reSub st.pat st.repl t) from by
        simp [redactCats, hm]]
      exact List.Sublist.cons₂ _ (ih _)
    · rw [redactCats_head_skip _ _ _ hm]
      exact List.Sublist.cons _ (ih t)

/-- **C6, counterexample.** On `"my name is John. patient: Mary"` both
name patterns fire, and the `"name"` tag is appended once per name
pattern: the returned categories list is `["name", "name"]`, which has a
duplicate — contradicting the claim that no category tag appears more
than once. -/
theorem C6_counterexample_duplicate_name :
    (redact_phi "my name is John. patient: Mary".data).2.2 = ["name", "name"] ∧
    ¬ ((redact_phi "my name is John. patient: Mary".data).2.2).Nodup := by
  exact ⟨by decide, by decide⟩

/-- **C6, amended.** The categories list follows detection order and each
of the six `PATTERNS` tags appears at most once; the `"name"` tag,
however, is appended once per name pattern that matches, so it can appear
up to twice.  Precisely: for every input text the returned list is a
sublist of `["phone", "ssn", "email", "mrn", "date_of_birth", "address",
"name", "name"]`. -/
theorem C6_amended_categories_sublist (text : List Char) :
    ((redact_phi text).2.2).Sublist
      ["phone", "ssn", "email", "mrn", "date_of_birth", "address", "name", "name"] := by
  have h := redactCats_sublist phiStages text
  rw [show phiStages.map Stage.tag =
      ["phone", "ssn", "email", "mrn", "date_of_birth", "address", "name", "name"]
    from rfl] at h
  exact h

theorem prGo_of_tail_occurrence (old new : List Char) (hne : old ≠ []) :
    ∀ (pre : List Char) (f : Nat), pre.length + old.length ≤ f →
      (∀ i, i < pre.length → ¬ old.isPrefixOf ((pre ++ old).drop i) = true) →
      prGo old new f (pre ++ old) = pre ++ new := by
  intro pre
  induction pre with
  | nil =>
    intro f hf _
    cases old with
    | nil => exact absurd rfl hne
    | cons a t =>
      cases f with
      | zero => simp at hf
      | succ f' =>
        rw [List.nil_append, prGo, if_pos (by
          rw [List.isPrefixOf_iff_prefix])]
        rw [List.drop_length]
        cases f' <;> simp [prGo]
  | cons c p ih =>
    intro f hf hnot
    cases f with
    | zero => simp at hf
    | succ f' =>
      have h0 : ¬ old.isPrefixOf (c :: (p ++ old)) = true := by
        have := hnot 0 (by simp)
        simpa using this
      rw [List.cons_append, prGo, if_neg h0]
      refine congrArg (c :: ·) (ih f' (by simp at hf ⊢; omega) fun i hi => ?_)
      have := hnot (i + 1) (by simpa using Nat.succ_lt_succ hi)
      simpa using this

/-- **C7, counterexample.** On `"Patient: Pat"` the second name pattern
matches with `group(0) = "Patient: Pat"` and captured name `"Pat"`; the
replacement `group(0).replace(group(1), "[REDACTED_NAME]")` substitutes
every case-sensitive occurrence of `"Pat"` — including the one at the
start of the word `"Patient"` — so the matched phrase is mangled to
`"[REDACTED_NAME]ient: [REDACTED_NAME]"` instead of the claimed
`"Patient: [REDACTED_NAME]"`. -/
theorem C7_counterexample_prefix_mangled :
    (redact_phi "Patient: Pat".data).1 = "[REDACTED_NAME]ient: [REDACTED_NAME]".data ∧
    (redact_phi "Patient: Pat".data).1 ≠ "Patient: [REDACTED_NAME]".data := by
  exact ⟨by decide, by decide⟩

/-- **C7, amended.** The name pass replaces every case-sensitive
occurrence of the captured name inside the whole matched phrase (not just
the captured span).  When the captured name does not also occur earlier in
the phrase — the only change the counterexample forces — the result is
exactly the phrase with the captured name span replaced by
`[REDACTED_NAME]` and the rest of the phrase intact, so the captured name
does not survive in the replaced phrase.  `nameRepl` is the replacement
function `redact_phi` applies to each name-pattern match, whose
`group(0)` is a phrase prefix followed by the captured `group(1)`. -/
theorem C7_amended_nameRepl_replaces_name (pre g1 : List Char) (hne : g1 ≠ [])
    (hnot : ∀ i, i < pre.length → ¬ g1.isPrefixOf ((pre ++ g1).drop i) = true) :
    nameRepl ⟨pre ++ g1, [g1]⟩ = pre ++ "[REDACTED_NAME]".data := by
  show pythonReplace (pre ++ g1) g1 "[REDACTED_NAME]".data =
    pre ++ "[REDACTED_NAME]".data
  rw [pythonReplace, if_neg (by
    cases g1 with
    | nil => exact absurd rfl hne
    | cons a t => simp)]
  exact prGo_of_tail_occurrence g1 "[REDACTED_NAME]".data hne pre
    (pre ++ g1).length (by simp) hnot

/-- Witness for the amended C7: the phrase `"my name is John"` with
captured name `"John"` (which does not occur in the phrase prefix) is
rewritten to `"my name is [REDACTED_NAME]"`. -/
theorem C7_amended_nameRepl_replaces_name_witness :
    nameRepl ⟨"my name is ".data ++ "John".data, ["John".data]⟩ =
      "my name is ".data ++ "[REDACTED_NAME]".data :=
  C7_amended_nameRepl_replaces_name "my name is ".data "John".data
    (by decide) (by decide)
